import Mathlib

/-!
A verification development for the gdbwire GDB/MI streaming parser library.

The parse-tree data model is translated from src/src/lib/gdbmi/gdbmi_pt.h.
The scanner, grammar engine, push driver and dispatch layer are not present
under src/ (only their tests and the parse-tree header are); those components
are modelled from the specification (spec.md sections 4.B, 4.C, 4.D, 4.E, 4.F),
as noted on each definition.

Byte strings are lists of natural numbers (byte values); parsing is
byte-transparent, per the spec. All definitions are structurally recursive
(a fuel argument is used for the recursive result grammar), so concrete
inputs evaluate by rfl and decide.
-/

namespace Gdbwire

/-- Bytes of a Lean string literal, used to write concrete MI inputs. -/
def str (s : String) : List Nat := s.toList.map Char.toNat

/-! ## Parse-tree data model, translated from src/src/lib/gdbmi/gdbmi_pt.h -/

/-- enum gdbmi_result_class (gdbmi_pt.h lines 34-87) lists DONE, RUNNING,
CONNECTED, ERROR, EXIT. Modelled from the spec: the UNSUPPORTED sentinel that
the result-class recognizer returns for names outside the catalog; the
recognizer itself is not under src/, the header copy omits the sentinel, and
the test suite (gdbwire.cpp line 30) references GDBMI_UNSUPPORTED. -/
inductive gdbmi_result_class where
  | GDBMI_DONE
  | GDBMI_RUNNING
  | GDBMI_CONNECTED
  | GDBMI_ERROR
  | GDBMI_EXIT
  | GDBMI_UNSUPPORTED
  deriving DecidableEq, Repr

/-- enum gdbmi_async_record_kind: status (+), exec (*), notify (=). -/
inductive gdbmi_async_record_kind where
  | GDBMI_STATUS
  | GDBMI_EXEC
  | GDBMI_NOTIFY
  deriving DecidableEq, Repr

/-- enum gdbmi_stream_record_kind: console (~), target (@), log (&). -/
inductive gdbmi_stream_record_kind where
  | GDBMI_CONSOLE
  | GDBMI_TARGET
  | GDBMI_LOG
  deriving DecidableEq, Repr

/-- enum gdbmi_async_class (gdbmi_pt.h lines 256-451): the closed catalog of
async class names plus the GDBMI_ASYNC_UNSUPPORTED sentinel. -/
inductive gdbmi_async_class where
  | GDBMI_ASYNC_DOWNLOAD
  | GDBMI_ASYNC_STOPPED
  | GDBMI_ASYNC_RUNNING
  | GDBMI_ASYNC_THREAD_GROUP_ADDED
  | GDBMI_ASYNC_THREAD_GROUP_REMOVED
  | GDBMI_ASYNC_THREAD_GROUP_STARTED
  | GDBMI_ASYNC_THREAD_GROUP_EXITED
  | GDBMI_ASYNC_THREAD_CREATED
  | GDBMI_ASYNC_THREAD_EXITED
  | GDBMI_ASYNC_THREAD_SELECTED
  | GDBMI_ASYNC_LIBRARY_LOADED
  | GDBMI_ASYNC_LIBRARY_UNLOADED
  | GDBMI_ASYNC_TRACEFRAME_CHANGED
  | GDBMI_ASYNC_TSV_CREATED
  | GDBMI_ASYNC_TSV_MODIFIED
  | GDBMI_ASYNC_TSV_DELETED
  | GDBMI_ASYNC_BREAKPOINT_CREATED
  | GDBMI_ASYNC_BREAKPOINT_MODIFIED
  | GDBMI_ASYNC_BREAKPOINT_DELETED
  | GDBMI_ASYNC_RECORD_STARTED
  | GDBMI_ASYNC_RECORD_STOPPED
  | GDBMI_ASYNC_CMD_PARAM_CHANGED
  | GDBMI_ASYNC_MEMORY_CHANGED
  | GDBMI_ASYNC_UNSUPPORTED
  deriving DecidableEq, Repr

/-- struct gdbmi_result (gdbmi_pt.h lines 508-536): the recursive result
value. The C linked list of siblings is modelled as a Lean list of children
(spec section 9 treats the two as equivalent ordered containers); the C field
named variable is called var here because variable is a Lean keyword. A
cstring node holds a payload byte string and, per the C union, has no
children. -/
inductive gdbmi_result where
  | cstring (var : Option (List Nat)) (value : List Nat)
  | tuple (var : Option (List Nat)) (children : List gdbmi_result)
  | list (var : Option (List Nat)) (children : List gdbmi_result)

/-- The optional variable (key) of a result node. -/
def resVar : gdbmi_result → Option (List Nat)
  | .cstring v _ => v
  | .tuple v _ => v
  | .list v _ => v

/-- The children of a result node; a cstring leaf has none (its union arm in
gdbmi_pt.h holds only the payload char pointer). -/
def resChildren : gdbmi_result → List gdbmi_result
  | .cstring _ _ => []
  | .tuple _ cs => cs
  | .list _ cs => cs

/-- Attach a variable name to a parsed value. -/
def withVar (name : List Nat) : gdbmi_result → gdbmi_result
  | .cstring _ s => .cstring (some name) s
  | .tuple _ cs => .tuple (some name) cs
  | .list _ cs => .list (some name) cs

/-- struct gdbmi_stream_record (gdbmi_pt.h lines 544-549): a kind and the
payload string, nothing else. -/
structure gdbmi_stream_record where
  kind : gdbmi_stream_record_kind
  cstring : List Nat

/-- struct gdbmi_async_record (gdbmi_pt.h lines 459-484): token (zero means
absent), kind, class, optional results. -/
structure gdbmi_async_record where
  token : Nat
  kind : gdbmi_async_record_kind
  async_class : gdbmi_async_class
  result : List gdbmi_result

/-- struct gdbmi_result_record (gdbmi_pt.h lines 121-147): token (zero means
absent), result class, optional results. -/
structure gdbmi_result_record where
  token : Nat
  result_class : gdbmi_result_class
  result : List gdbmi_result

/-- struct gdbmi_oob_record (gdbmi_pt.h lines 171-184): the tagged union of
an async record and a stream record. -/
inductive gdbmi_oob_record where
  | async_record (r : gdbmi_async_record)
  | stream_record (r : gdbmi_stream_record)

/-- struct gdbmi_output (gdbmi_pt.h lines 95-112): the ordered out-of-band
records and the optional result record of one output command. -/
structure gdbmi_output where
  oob_record : List gdbmi_oob_record
  result_record : Option gdbmi_result_record

/-! ## Byte classification (spec section 4.B token classes) -/

def isDigitB (c : Nat) : Bool := 48 ≤ c && c ≤ 57

def isOctalB (c : Nat) : Bool := 48 ≤ c && c ≤ 55

/-- Identifier start bytes: A-Z a-z underscore dash. -/
def isIdentStart (c : Nat) : Bool :=
  (65 ≤ c && c ≤ 90) || (97 ≤ c && c ≤ 122) || c = 95 || c = 45

/-- Identifier continuation bytes add the digits. -/
def isIdentCont (c : Nat) : Bool := isIdentStart c || isDigitB c

def isWs (c : Nat) : Bool := c = 32 || c = 9

/-- Skip insignificant whitespace (spaces and tabs) outside quoted strings. -/
def skipWs : List Nat → List Nat
  | c :: rest => if isWs c then skipWs rest else c :: rest
  | [] => []

/-- Greedy scan of an identifier: the lexeme and the remaining bytes. -/
def scanIdent : List Nat → List Nat × List Nat
  | c :: rest =>
    if isIdentCont c then
      let p := scanIdent rest
      (c :: p.1, p.2)
    else ([], c :: rest)
  | [] => ([], [])

/-- Accumulate decimal digits. -/
def digitsAcc (acc : Nat) : List Nat → Nat × List Nat
  | c :: rest =>
    if isDigitB c then digitsAcc (acc * 10 + (c - 48)) rest else (acc, c :: rest)
  | [] => (acc, [])

/-- Greedy scan of an integer literal: some value if at least one digit was
consumed, plus the remaining bytes. -/
def takeDigits : List Nat → Option Nat × List Nat
  | c :: rest =>
    if isDigitB c then
      let p := digitsAcc (c - 48) rest
      (some p.1, p.2)
    else (none, c :: rest)
  | [] => (none, [])

/-- The numeric value of an all-digit byte string, as the scanner reads it. -/
def digitsVal (ds : List Nat) : Nat := ds.foldl (fun a c => a * 10 + (c - 48)) 0

/-! ## Scanner: C-style quoted strings (spec section 4.B escape table)

Modelled from the spec: the scanner source is not under src/. Inside quotes,
backslash-backslash gives a backslash, backslash-quote a quote, the letters
a b t n v f r the control bytes 7 8 9 10 11 12 13, one to three octal digits
the byte with that octal value, and any other backslash pair is preserved
verbatim; the closing quote terminates and an unterminated string is a scan
error (none). -/

/-- Prepend a decoded byte to the payload of a successful scan. -/
def consPayload (b : Nat) : Option (List Nat × List Nat) → Option (List Nat × List Nat)
  | some p => some (b :: p.1, p.2)
  | none => none

/-- Prepend two bytes (a preserved escape pair) to the payload. -/
def consPayload2 (b1 b2 : Nat) (o : Option (List Nat × List Nat)) :
    Option (List Nat × List Nat) :=
  consPayload b1 (consPayload b2 o)

/-- Scan the interior of a quoted string with a fuel bound (structural on the
fuel, so concrete inputs evaluate in the kernel); every step consumes at
least one input byte, so fuel equal to the input length plus one never runs
out. Returns the decoded payload and the bytes after the closing quote, or
none for an unterminated string. -/
def scanStringF : Nat → List Nat → Option (List Nat × List Nat)
  | 0, _ => none
  | _ + 1, [] => none
  | fuel + 1, c :: rest =>
    if c = 34 then some ([], rest)
    else if c = 92 then
      match rest with
      | [] => none
      | e :: rest2 =>
        if e = 92 then consPayload 92 (scanStringF fuel rest2)
        else if e = 34 then consPayload 34 (scanStringF fuel rest2)
        else if e = 97 then consPayload 7 (scanStringF fuel rest2)
        else if e = 98 then consPayload 8 (scanStringF fuel rest2)
        else if e = 116 then consPayload 9 (scanStringF fuel rest2)
        else if e = 110 then consPayload 10 (scanStringF fuel rest2)
        else if e = 118 then consPayload 11 (scanStringF fuel rest2)
        else if e = 102 then consPayload 12 (scanStringF fuel rest2)
        else if e = 114 then consPayload 13 (scanStringF fuel rest2)
        else if isOctalB e then
          match rest2 with
          | d2 :: rest3 =>
            if isOctalB d2 then
              match rest3 with
              | d3 :: rest4 =>
                if isOctalB d3 then
                  consPayload ((e - 48) * 64 + (d2 - 48) * 8 + (d3 - 48))
                    (scanStringF fuel rest4)
                else consPayload ((e - 48) * 8 + (d2 - 48)) (scanStringF fuel rest3)
              | [] => consPayload ((e - 48) * 8 + (d2 - 48)) none
            else consPayload (e - 48) (scanStringF fuel rest2)
          | [] => consPayload (e - 48) none
        else consPayload2 92 e (scanStringF fuel rest2)
    else consPayload c (scanStringF fuel rest)

/-- The quoted-string scanner: fuel instantiated so it cannot run out. -/
def scanString (l : List Nat) : Option (List Nat × List Nat) :=
  scanStringF (l.length + 1) l

/-! ## Class recognizers (spec section 4.C)

Modelled from the spec: the grammar engine consults two fixed lookup tables
(result class names to enum, async class names to enum); an unrecognized name
reduces to the UNSUPPORTED sentinel but does not abort the parse. The table
entries follow the per-constructor documentation in gdbmi_pt.h. -/

/-- Linear lookup in a fixed name table. -/
def tableLookup {α : Type} : List (List Nat × α) → List Nat → Option α
  | [], _ => none
  | p :: ps, name => if p.1 = name then some p.2 else tableLookup ps name

/-- The fixed result-class table: done, running, connected, error, exit. -/
def result_class_table : List (List Nat × gdbmi_result_class) :=
  [(str "done", .GDBMI_DONE),
   (str "running", .GDBMI_RUNNING),
   (str "connected", .GDBMI_CONNECTED),
   (str "error", .GDBMI_ERROR),
   (str "exit", .GDBMI_EXIT)]

/-- The result-class recognizer: unknown names give the UNSUPPORTED sentinel. -/
def get_gdbmi_result_class (name : List Nat) : gdbmi_result_class :=
  (tableLookup result_class_table name).getD .GDBMI_UNSUPPORTED

/-- The fixed async-class table, one entry per catalog constructor of
gdbmi_async_class (the names come from the gdbmi_pt.h documentation). -/
def async_class_table : List (List Nat × gdbmi_async_class) :=
  [(str "download", .GDBMI_ASYNC_DOWNLOAD),
   (str "stopped", .GDBMI_ASYNC_STOPPED),
   (str "running", .GDBMI_ASYNC_RUNNING),
   (str "thread-group-added", .GDBMI_ASYNC_THREAD_GROUP_ADDED),
   (str "thread-group-removed", .GDBMI_ASYNC_THREAD_GROUP_REMOVED),
   (str "thread-group-started", .GDBMI_ASYNC_THREAD_GROUP_STARTED),
   (str "thread-group-exited", .GDBMI_ASYNC_THREAD_GROUP_EXITED),
   (str "thread-created", .GDBMI_ASYNC_THREAD_CREATED),
   (str "thread-exited", .GDBMI_ASYNC_THREAD_EXITED),
   (str "thread-selected", .GDBMI_ASYNC_THREAD_SELECTED),
   (str "library-loaded", .GDBMI_ASYNC_LIBRARY_LOADED),
   (str "library-unloaded", .GDBMI_ASYNC_LIBRARY_UNLOADED),
   (str "traceframe-changed", .GDBMI_ASYNC_TRACEFRAME_CHANGED),
   (str "tsv-created", .GDBMI_ASYNC_TSV_CREATED),
   (str "tsv-modified", .GDBMI_ASYNC_TSV_MODIFIED),
   (str "tsv-deleted", .GDBMI_ASYNC_TSV_DELETED),
   (str "breakpoint-created", .GDBMI_ASYNC_BREAKPOINT_CREATED),
   (str "breakpoint-modified", .GDBMI_ASYNC_BREAKPOINT_MODIFIED),
   (str "breakpoint-deleted", .GDBMI_ASYNC_BREAKPOINT_DELETED),
   (str "record-started", .GDBMI_ASYNC_RECORD_STARTED),
   (str "record-stopped", .GDBMI_ASYNC_RECORD_STOPPED),
   (str "cmd-param-changed", .GDBMI_ASYNC_CMD_PARAM_CHANGED),
   (str "memory-changed", .GDBMI_ASYNC_MEMORY_CHANGED)]

/-- The async-class recognizer: unknown names give the UNSUPPORTED sentinel. -/
def get_gdbmi_async_class (name : List Nat) : gdbmi_async_class :=
  (tableLookup async_class_table name).getD .GDBMI_ASYNC_UNSUPPORTED

/-! ## Grammar engine: one line (spec section 4.C)

Modelled from the spec: the grammar source is not under src/. The grammar is
line oriented: each line is a stream record, an async record, a result
record, or the prompt. Error positions are 1-based byte columns within the
line (spec section 4.F); with the full stripped line of length L, the byte
at remaining suffix rest has column L - rest.length + 1. -/

/-- The 1-based column of the first byte of the remaining suffix. -/
def colAt (L : Nat) (rest : List Nat) : Nat := L - rest.length + 1

/-- The offending lexeme at a failure point: a whole identifier or integer
when one starts here, otherwise the single byte. -/
def offendingLexeme : List Nat → List Nat
  | [] => []
  | c :: rest =>
    if isIdentStart c then (scanIdent (c :: rest)).1
    else if isDigitB c then (c :: rest).takeWhile isDigitB
    else [c]

/-- Parser modes for the recursive result grammar (one fueled function
instead of mutual recursion, so the kernel can evaluate it):
value parses one value; items parses tuple or list contents up to the closing
byte; itemsTail parses the comma-separated continuation; top parses the
comma-prefixed result list after a class name, to the end of the line. -/
inductive PMode where
  | value
  | items (closer : Nat)
  | itemsTail (closer : Nat)
  | top

/-- Parse the optional leading variable of a result: an identifier followed
by an equal sign, per result ::= [variable eq] value. -/
def parseOptVar (L : Nat) (rest : List Nat) :
    Except (List Nat × Nat) (Option (List Nat) × List Nat) :=
  let r1 := skipWs rest
  match r1 with
  | c :: _ =>
    if isIdentStart c then
      let p := scanIdent r1
      let r2 := skipWs p.2
      match r2 with
      | 61 :: r3 => .ok (some p.1, r3)
      | _ => .error (offendingLexeme r2, colAt L r2)
    else .ok (none, r1)
  | [] => .ok (none, [])

/-- Rename the elements of a freshly parsed singleton value list. -/
def applyVar (ov : Option (List Nat)) (vs : List gdbmi_result) : List gdbmi_result :=
  match ov with
  | some name => vs.map (withVar name)
  | none => vs

/-- The recursive result grammar, spec section 4.C:
result ::= [variable eq] value; value ::= cstring or tuple or list;
tuple ::= open-brace [result (comma result)*] close-brace, and the same for
lists with brackets; the mode distinguishes the four entry points. Structural
on fuel; every self-call consumes input, so 4 * length + 4 fuel suffices. -/
def parseR (L : Nat) : Nat → PMode → List Nat →
    Except (List Nat × Nat) (List gdbmi_result × List Nat)
  | 0, _, _ => .error ([], 0)
  | fuel + 1, .value, rest =>
    match skipWs rest with
    | [] => .error ([], colAt L [])
    | c :: r =>
      if c = 34 then
        match scanString r with
        | none => .error (34 :: r, colAt L (c :: r))
        | some pr => .ok ([.cstring none pr.1], pr.2)
      else if c = 123 then
        match parseR L fuel (.items 125) r with
        | .error e => .error e
        | .ok q => .ok ([.tuple none q.1], q.2)
      else if c = 91 then
        match parseR L fuel (.items 93) r with
        | .error e => .error e
        | .ok q => .ok ([.list none q.1], q.2)
      else .error (offendingLexeme (c :: r), colAt L (c :: r))
  | fuel + 1, .items closer, rest =>
    match skipWs rest with
    | [] => .error ([], colAt L [])
    | c :: r =>
      if c = closer then .ok ([], r)
      else
        match parseOptVar L (c :: r) with
        | .error e => .error e
        | .ok ov =>
          match parseR L fuel .value ov.2 with
          | .error e => .error e
          | .ok q =>
            match parseR L fuel (.itemsTail closer) q.2 with
            | .error e => .error e
            | .ok w => .ok (applyVar ov.1 q.1 ++ w.1, w.2)
  | fuel + 1, .itemsTail closer, rest =>
    match skipWs rest with
    | [] => .error ([], colAt L [])
    | c :: r =>
      if c = closer then .ok ([], r)
      else if c = 44 then
        match parseOptVar L r with
        | .error e => .error e
        | .ok ov =>
          match parseR L fuel .value ov.2 with
          | .error e => .error e
          | .ok q =>
            match parseR L fuel (.itemsTail closer) q.2 with
            | .error e => .error e
            | .ok w => .ok (applyVar ov.1 q.1 ++ w.1, w.2)
      else .error (offendingLexeme (c :: r), colAt L (c :: r))
  | fuel + 1, .top, rest =>
    match skipWs rest with
    | [] => .ok ([], [])
    | c :: r =>
      if c = 44 then
        match parseOptVar L r with
        | .error e => .error e
        | .ok ov =>
          match parseR L fuel .value ov.2 with
          | .error e => .error e
          | .ok q =>
            match parseR L fuel .top q.2 with
            | .error e => .error e
            | .ok w => .ok (applyVar ov.1 q.1 ++ w.1, w.2)
      else .error (offendingLexeme (c :: r), colAt L (c :: r))

/-- The outcome of parsing one stripped line: the prompt, an out-of-band
record, a result record (with the column of its caret, for duplicate
detection), or a scan or grammar error carrying the offending lexeme and its
column (spec section 4.F). -/
inductive LineResult where
  | prompt
  | oob (r : gdbmi_oob_record)
  | resultRec (r : gdbmi_result_record) (sigilCol : Nat)
  | err (token : List Nat) (col : Nat)

/-- The literal prompt token. -/
def promptTok : List Nat := str "(gdb)"

/-- A line consisting (up to insignificant whitespace) of the prompt token. -/
def isPromptLine (s : List Nat) : Bool :=
  let l1 := skipWs s
  if l1.take 5 = promptTok ∧ skipWs (l1.drop 5) = [] then true else false

/-- Finish a stream-record line after its sigil: a quoted string, then the
end of the line. -/
def finishStream (L : Nat) (kind : gdbmi_stream_record_kind) (r : List Nat) :
    LineResult :=
  match skipWs r with
  | c :: r2 =>
    if c = 34 then
      match scanString r2 with
      | none => .err (34 :: r2) (colAt L (c :: r2))
      | some pr =>
        match skipWs pr.2 with
        | [] => .oob (.stream_record ⟨kind, pr.1⟩)
        | t => .err (offendingLexeme t) (colAt L t)
    else .err (offendingLexeme (c :: r2)) (colAt L (c :: r2))
  | [] => .err [] (colAt L [])

/-- Finish an async-record line after its sigil: the class identifier, then
the comma-separated results to the end of the line. -/
def finishAsync (L tok : Nat) (kind : gdbmi_async_record_kind) (r : List Nat) :
    LineResult :=
  let r1 := skipWs r
  let p := scanIdent r1
  if p.1 = [] then .err (offendingLexeme r1) (colAt L r1)
  else
    match parseR L (4 * p.2.length + 4) .top p.2 with
    | .error e => .err e.1 e.2
    | .ok q => .oob (.async_record ⟨tok, kind, get_gdbmi_async_class p.1, q.1⟩)

/-- Finish a result-record line after its caret: the class identifier, then
the comma-separated results to the end of the line. -/
def finishResultRec (L tok : Nat) (sigilCol : Nat) (r : List Nat) : LineResult :=
  let r1 := skipWs r
  let p := scanIdent r1
  if p.1 = [] then .err (offendingLexeme r1) (colAt L r1)
  else
    match parseR L (4 * p.2.length + 4) .top p.2 with
    | .error e => .err e.1 e.2
    | .ok q => .resultRec ⟨tok, get_gdbmi_result_class p.1, q.1⟩ sigilCol

/-- Parse one stripped line (no trailing newline or carriage return): the
prompt, or an optional integer token prefix followed by a sigil and the
record body. A token prefix is grammatical only before async and result
sigils; an unexpected byte is reported with its lexeme and column. -/
def parseLine (s : List Nat) : LineResult :=
  let L := s.length
  if isPromptLine s then .prompt
  else
    let p := takeDigits (skipWs s)
    let tok := p.1.getD 0
    match p.2 with
    | c :: r =>
      if c = 126 then
        if p.1.isSome then .err [126] (colAt L (c :: r))
        else finishStream L .GDBMI_CONSOLE r
      else if c = 64 then
        if p.1.isSome then .err [64] (colAt L (c :: r))
        else finishStream L .GDBMI_TARGET r
      else if c = 38 then
        if p.1.isSome then .err [38] (colAt L (c :: r))
        else finishStream L .GDBMI_LOG r
      else if c = 42 then finishAsync L tok .GDBMI_EXEC r
      else if c = 43 then finishAsync L tok .GDBMI_STATUS r
      else if c = 61 then finishAsync L tok .GDBMI_NOTIFY r
      else if c = 94 then finishResultRec L tok (colAt L (c :: r)) r
      else .err (offendingLexeme (c :: r)) (colAt L (c :: r))
    | [] => .err [] (colAt L [])

/-! ## Dispatch layer (spec section 4.E) and push driver (spec section 4.D)

Modelled from the spec: neither source file is under src/. The driver buffers
bytes and hands each newline-terminated line to the engine; the engine
accumulates records of the current output command and, at the prompt, hands
the completed gdbmi_output to the output callback, after which the dispatch
layer walks it and fans out to the stream, async, result and prompt
callbacks. A grammar violation is reported once through parse_error and the
engine resynchronizes by discarding input up to and including the next
prompt line. Callback invocations are recorded as events, in order. -/

/-- A parse-error position: 1-based line within the parser lifetime, 1-based
byte column within the offending line (spec section 4.F). -/
structure gdbmi_position where
  line : Nat
  column : Nat

/-- One callback invocation, in order: the parser-level output callback,
then the dispatch-layer stream, async, result, prompt and parse_error
callbacks (spec section 6). -/
inductive Event where
  | outputCmd (o : gdbmi_output)
  | stream (r : gdbmi_stream_record)
  | asyncRec (r : gdbmi_async_record)
  | result (r : gdbmi_result_record)
  | prompt (text : List Nat)
  | parseError (mi_line : List Nat) (token : List Nat) (pos : gdbmi_position)

/-- The fixed prompt text handed to the prompt callback. -/
def promptText : List Nat := str "(gdb) \n"

/-- The dispatch event of one out-of-band record. -/
def oobEvent : gdbmi_oob_record → Event
  | .stream_record r => .stream r
  | .async_record r => .asyncRec r

/-- The dispatch layer on one completed output command: its out-of-band
records in order, then the result record if present, then the prompt. -/
def dispatchOutput (o : gdbmi_output) : List Event :=
  o.oob_record.map oobEvent ++
    (match o.result_record with
     | some r => [Event.result r]
     | none => []) ++
    [Event.prompt promptText]

/-- The grammar-engine state: the 1-based number of the next line, the
records accumulated for the current output command, and whether the engine
is discarding input while resynchronizing after an error. -/
structure EngineState where
  lineNo : Nat
  oob : List gdbmi_oob_record
  result_record : Option gdbmi_result_record
  recovering : Bool

def engineInit : EngineState := ⟨1, [], none, false⟩

/-- Strip the line terminator: the trailing newline, and a carriage return
before it (spec section 4.C edge cases). -/
def stripEol (l : List Nat) : List Nat :=
  let l1 := if l.getLast? = some 10 then l.dropLast else l
  if l1.getLast? = some 13 then l1.dropLast else l1

/-- Feed one complete raw line (still carrying its newline) to the engine.
While recovering, input up to and including the next prompt line is
discarded. A prompt closes the current output command and dispatches it; an
out-of-band record is appended in order; a result record fills the single
result slot (a second one before the prompt violates the grammar); a bad
line is reported once through parse_error, the partial tree is discarded,
and recovery begins. -/
def processLine (e : EngineState) (rawLine : List Nat) : EngineState × List Event :=
  let stripped := stripEol rawLine
  if e.recovering then
    if isPromptLine stripped then
      ({ lineNo := e.lineNo + 1, oob := [], result_record := none,
         recovering := false }, [])
    else ({ e with lineNo := e.lineNo + 1 }, [])
  else
    match parseLine stripped with
    | .prompt =>
      let out : gdbmi_output := ⟨e.oob, e.result_record⟩
      ({ lineNo := e.lineNo + 1, oob := [], result_record := none,
         recovering := false },
        Event.outputCmd out :: dispatchOutput out)
    | .oob r => ({ e with lineNo := e.lineNo + 1, oob := e.oob ++ [r] }, [])
    | .resultRec r sigilCol =>
      match e.result_record with
      | none => ({ e with lineNo := e.lineNo + 1, result_record := some r }, [])
      | some _ =>
        ({ lineNo := e.lineNo + 1, oob := [], result_record := none,
           recovering := true },
          [Event.parseError rawLine [94] ⟨e.lineNo, sigilCol⟩])
    | .err t c =>
      ({ lineNo := e.lineNo + 1, oob := [], result_record := none,
         recovering := true },
        [Event.parseError rawLine t ⟨e.lineNo, c⟩])

/-- Extract the first newline-terminated line (including its newline) and
the remaining bytes, when the buffer holds one. -/
def splitLine : List Nat → Option (List Nat × List Nat)
  | [] => none
  | b :: rest =>
    if b = 10 then some ([10], rest)
    else
      match splitLine rest with
      | none => none
      | some p => some (b :: p.1, p.2)

/-- Process every complete line of the buffer, fueled (each extracted line
holds at least its newline byte, so fuel equal to the buffer length never
runs out): the final engine state, the unconsumed partial line, and the
events in order. -/
def drainLinesF : Nat → EngineState → List Nat → EngineState × List Nat × List Event
  | 0, e, buf => (e, buf, [])
  | fuel + 1, e, buf =>
    match splitLine buf with
    | none => (e, buf, [])
    | some p =>
      let q := processLine e p.1
      let w := drainLinesF fuel q.1 p.2
      (w.1, w.2.1, q.2 ++ w.2.2)

/-- Drain every complete line of a buffer, with the fuel instantiated so it
cannot run out. -/
def drain (e : EngineState) (buf : List Nat) : EngineState × List Nat × List Event :=
  drainLinesF buf.length e buf

/-- The push-driver state: the engine and the buffered partial line. -/
structure GdbwireState where
  engine : EngineState
  buffer : List Nat

def gdbwireInit : GdbwireState := ⟨engineInit, []⟩

/-- Push bytes (spec section 4.D): append to the internal buffer, extract
every newline-terminated line in order, feed each to the engine, keep the
unconsumed tail buffered. Returns the new state and the callback events. -/
def gdbwire_push_data (s : GdbwireState) (bytes : List Nat) :
    GdbwireState × List Event :=
  let q := drain s.engine (s.buffer ++ bytes)
  (⟨q.1, q.2.1⟩, q.2.2)

/-- Push a list of fragments in order, concatenating the events. -/
def pushMany (s : GdbwireState) : List (List Nat) → GdbwireState × List Event
  | [] => (s, [])
  | p :: ps =>
    let a := gdbwire_push_data s p
    let b := pushMany a.1 ps
    (b.1, a.2 ++ b.2)

/-! ## Predicates used by the claims -/

/-- Is the event a stream or async dispatch call. -/
def isStreamOrAsync : Event → Bool
  | .stream _ => true
  | .asyncRec _ => true
  | _ => false

/-- Is the event a result dispatch call. -/
def isResultEv : Event → Bool
  | .result _ => true
  | _ => false

/-- Is the event a prompt dispatch call. -/
def isPromptEv : Event → Bool
  | .prompt _ => true
  | _ => false

/-- The tuple-variable well-formedness a claim asserts of delivered parse
trees: every child of a TUPLE node carries a non-empty variable name,
recursively; LIST children are unconstrained. -/
inductive TupleOk : gdbmi_result → Prop where
  | cstring (v : Option (List Nat)) (s : List Nat) : TupleOk (.cstring v s)
  | tuple (v : Option (List Nat)) (cs : List gdbmi_result)
      (hvar : ∀ c ∈ cs, ∃ name, resVar c = some name ∧ name ≠ [])
      (hrec : ∀ c ∈ cs, TupleOk c) :
      TupleOk (.tuple v cs)
  | list (v : Option (List Nat)) (cs : List gdbmi_result)
      (h : ∀ c ∈ cs, TupleOk c) : TupleOk (.list v cs)

/-! ## Lemmas: the push driver is insensitive to fragmentation -/

theorem splitLine_facts : ∀ {buf l r : List Nat}, splitLine buf = some (l, r) →
    l ≠ [] ∧ l.length + r.length = buf.length := by
  intro buf
  induction buf with
  | nil => intro l r h; simp [splitLine] at h
  | cons b rest ih =>
    intro l r h
    rw [splitLine] at h
    by_cases hb : b = 10
    · rw [if_pos hb] at h
      cases h
      refine ⟨by simp, ?_⟩
      simp only [List.length_cons, List.length_nil]
      omega
    · rw [if_neg hb] at h
      cases hsp : splitLine rest with
      | none => rw [hsp] at h; cases h
      | some p =>
        rw [hsp] at h
        obtain ⟨h1, h2⟩ := @ih p.1 p.2 (by rw [hsp])
        cases h
        refine ⟨by simp, ?_⟩
        simp only [List.length_cons]
        omega

theorem splitLine_append : ∀ {x : List Nat} (y : List Nat) {l r : List Nat},
    splitLine x = some (l, r) → splitLine (x ++ y) = some (l, r ++ y) := by
  intro x
  induction x with
  | nil => intro y l r h; simp [splitLine] at h
  | cons b rest ih =>
    intro y l r h
    rw [splitLine] at h
    rw [List.cons_append, splitLine]
    by_cases hb : b = 10
    · rw [if_pos hb] at h ⊢
      cases h
      rfl
    · rw [if_neg hb] at h ⊢
      cases hsp : splitLine rest with
      | none => rw [hsp] at h; cases h
      | some p =>
        rw [hsp] at h
        cases h
        rw [@ih y p.1 p.2 (by rw [hsp])]

theorem drainLinesF_of_none {buf : List Nat} (f : Nat) (e : EngineState)
    (h : splitLine buf = none) : drainLinesF f e buf = (e, buf, []) := by
  cases f with
  | zero => rfl
  | succ f => rw [drainLinesF, h]

theorem drainLinesF_succ {buf l r : List Nat} (f : Nat) (e : EngineState)
    (h : splitLine buf = some (l, r)) :
    drainLinesF (f + 1) e buf =
      ((drainLinesF f (processLine e l).1 r).1,
       (drainLinesF f (processLine e l).1 r).2.1,
       (processLine e l).2 ++ (drainLinesF f (processLine e l).1 r).2.2) := by
  rw [drainLinesF, h]

theorem drainLinesF_fuel : ∀ (n f : Nat) (e : EngineState) (buf : List Nat),
    buf.length ≤ n → buf.length ≤ f → drainLinesF f e buf = drain e buf := by
  intro n
  induction n with
  | zero =>
    intro f e buf hn _
    have hb : buf = [] := List.length_eq_zero.mp (Nat.le_zero.mp hn)
    subst hb
    rw [@drainLinesF_of_none [] f e rfl]
    rfl
  | succ n ih =>
    intro f e buf hn hf
    cases hsp : splitLine buf with
    | none => rw [drainLinesF_of_none f e hsp, drain, drainLinesF_of_none _ e hsp]
    | some p =>
      obtain ⟨l, r⟩ := p
      obtain ⟨hne, hlen⟩ := splitLine_facts hsp
      have hb1 : 1 ≤ l.length := by
        cases hp : l with
        | nil => exact absurd hp hne
        | cons a t => simp
      cases f with
      | zero => omega
      | succ f =>
        obtain ⟨k, hk⟩ : ∃ k, buf.length = k + 1 := ⟨buf.length - 1, by omega⟩
        rw [drain, hk, drainLinesF_succ f e hsp, drainLinesF_succ k e hsp]
        rw [ih f _ r (by omega) (by omega), ih k _ r (by omega) (by omega)]

theorem drain_step {buf l r : List Nat} (e : EngineState)
    (h : splitLine buf = some (l, r)) :
    drain e buf =
      ((drain (processLine e l).1 r).1,
       (drain (processLine e l).1 r).2.1,
       (processLine e l).2 ++ (drain (processLine e l).1 r).2.2) := by
  obtain ⟨hne, hlen⟩ := splitLine_facts h
  have hb1 : 1 ≤ l.length := by
    cases hp : l with
    | nil => exact absurd hp hne
    | cons a t => simp
  obtain ⟨k, hk⟩ : ∃ k, buf.length = k + 1 := ⟨buf.length - 1, by omega⟩
  rw [drain, hk, drainLinesF_succ k e h]
  rw [drainLinesF_fuel r.length k _ r (by omega) (by omega)]

theorem drain_no_newline : ∀ (n : Nat) (e : EngineState) (buf : List Nat),
    buf.length ≤ n → splitLine (drain e buf).2.1 = none := by
  intro n
  induction n with
  | zero =>
    intro e buf hn
    have : buf = [] := List.length_eq_zero.mp (Nat.le_zero.mp hn)
    subst this
    rfl
  | succ n ih =>
    intro e buf hn
    cases hsp : splitLine buf with
    | none => rw [drain, drainLinesF_of_none _ e hsp]; exact hsp
    | some p =>
      obtain ⟨hne, hlen⟩ := splitLine_facts hsp
      have hb1 : 1 ≤ p.1.length := by
        cases hp : p.1 with
        | nil => exact absurd hp hne
        | cons a t => simp
      rw [drain_step e hsp]
      exact ih _ p.2 (by omega)

theorem drain_append : ∀ (n : Nat) (x : List Nat), x.length ≤ n →
    ∀ (y : List Nat) (e : EngineState),
    drain e (x ++ y) =
      ((drain (drain e x).1 ((drain e x).2.1 ++ y)).1,
       (drain (drain e x).1 ((drain e x).2.1 ++ y)).2.1,
       (drain e x).2.2 ++ (drain (drain e x).1 ((drain e x).2.1 ++ y)).2.2) := by
  intro n
  induction n with
  | zero =>
    intro x hn y e
    have hx : x = [] := List.length_eq_zero.mp (Nat.le_zero.mp hn)
    subst hx
    have h0 : drain e ([] : List Nat) = (e, ([] : List Nat), ([] : List Event)) := rfl
    rw [h0]
    simp
  | succ n ih =>
    intro x hn y e
    cases hsp : splitLine x with
    | none =>
      have hx : drain e x = (e, x, []) := by
        rw [drain, drainLinesF_of_none _ e hsp]
      rw [hx]
      simp
    | some p =>
      obtain ⟨hne, hlen⟩ := splitLine_facts hsp
      have hb1 : 1 ≤ p.1.length := by
        cases hp : p.1 with
        | nil => exact absurd hp hne
        | cons a t => simp
      have hxy : splitLine (x ++ y) = some (p.1, p.2 ++ y) := by
        exact @splitLine_append x y p.1 p.2 (by rw [hsp])
      rw [drain_step e hxy, drain_step e hsp]
      rw [ih p.2 (by omega) y (processLine e p.1).1]
      simp [List.append_assoc]

theorem gdbwire_push_append (s : GdbwireState) (a b : List Nat) :
    gdbwire_push_data s (a ++ b) =
      ((gdbwire_push_data (gdbwire_push_data s a).1 b).1,
       (gdbwire_push_data s a).2 ++
         (gdbwire_push_data (gdbwire_push_data s a).1 b).2) := by
  simp only [gdbwire_push_data]
  rw [← List.append_assoc]
  rw [drain_append (s.buffer ++ a).length (s.buffer ++ a) le_rfl b s.engine]

/-- C1: for every byte sequence and every way of splitting it into
consecutive fragments, pushing the fragments in order produces exactly the
same final state and the same sequence of callback invocations as pushing
the whole sequence in a single call; the hypothesis, that the buffered
partial line holds no newline, holds of the initial state and is preserved
by every push. -/
theorem push_fragment_invariance : ∀ (parts : List (List Nat)) (s : GdbwireState),
    splitLine s.buffer = none →
    pushMany s parts = gdbwire_push_data s parts.join := by
  intro parts
  induction parts with
  | nil =>
    intro s hs
    show (s, []) = gdbwire_push_data s [].join
    have h1 : ([] : List (List Nat)).join = [] := rfl
    rw [h1]
    simp only [gdbwire_push_data, List.append_nil]
    rw [drain, drainLinesF_of_none _ _ hs]
  | cons p ps ih =>
    intro s hs
    show ((pushMany (gdbwire_push_data s p).1 ps).1,
          (gdbwire_push_data s p).2 ++ (pushMany (gdbwire_push_data s p).1 ps).2) =
        gdbwire_push_data s (p :: ps).join
    have hinv : splitLine (gdbwire_push_data s p).1.buffer = none := by
      simp only [gdbwire_push_data]
      exact drain_no_newline (s.buffer ++ p).length s.engine (s.buffer ++ p) le_rfl
    rw [ih _ hinv]
    have h2 : (p :: ps).join = p ++ ps.join := rfl
    rw [h2]
    rw [gdbwire_push_append s p ps.join]

/-- Witness for C1 at a concrete fragmentation of one output command. -/
theorem push_fragment_invariance_witness :
    pushMany gdbwireInit [str "^do", str "ne\n(g", str "db) \n"] =
      gdbwire_push_data gdbwireInit ([str "^do", str "ne\n(g", str "db) \n"].join) :=
  push_fragment_invariance [str "^do", str "ne\n(g", str "db) \n"] gdbwireInit rfl

/-! ## Lemmas: dispatch-layer structure -/

theorem oobEvent_isStreamOrAsync (r : gdbmi_oob_record) :
    isStreamOrAsync (oobEvent r) = true := by
  cases r <;> rfl

theorem filter_sa_map_oob (l : List gdbmi_oob_record) :
    (l.map oobEvent).filter isStreamOrAsync = l.map oobEvent := by
  induction l with
  | nil => rfl
  | cons a t ih =>
    cases a <;> simp [isStreamOrAsync, oobEvent, ih]

theorem countP_result_map_oob (l : List gdbmi_oob_record) :
    (l.map oobEvent).countP isResultEv = 0 := by
  induction l with
  | nil => rfl
  | cons a t ih =>
    cases a <;> simp [isResultEv, oobEvent, List.countP_cons, ih]

theorem countP_prompt_map_oob (l : List gdbmi_oob_record) :
    (l.map oobEvent).countP isPromptEv = 0 := by
  induction l with
  | nil => rfl
  | cons a t ih =>
    cases a <;> simp [isPromptEv, oobEvent, List.countP_cons, ih]

/-- C2: the dispatch layer invokes the stream and async callbacks exactly
once per out-of-band record of a completed output command, in record order
(the stream-or-async events of the dispatch are exactly the records in
order); it invokes the result callback exactly when the command has a result
record, and at most once; it invokes the prompt callback exactly once; the
engine appends each out-of-band record at the end of the current command, so
record order is input order; and a completed command is handed over and
fanned out exactly at its prompt, so distinct commands are delivered in
input order without reordering, batching or coalescing. -/
theorem dispatch_per_record_calls :
    (∀ o : gdbmi_output,
      (dispatchOutput o).filter isStreamOrAsync = o.oob_record.map oobEvent) ∧
    (∀ o : gdbmi_output,
      (dispatchOutput o).countP isResultEv =
        (match o.result_record with
         | some _ => 1
         | none => 0)) ∧
    (∀ o : gdbmi_output, (dispatchOutput o).countP isPromptEv = 1) ∧
    (∀ (e : EngineState) (raw : List Nat) (r : gdbmi_oob_record),
      e.recovering = false → parseLine (stripEol raw) = .oob r →
      processLine e raw =
        ({ e with lineNo := e.lineNo + 1, oob := e.oob ++ [r] }, [])) ∧
    (∀ (e : EngineState) (raw : List Nat),
      e.recovering = false → parseLine (stripEol raw) = .prompt →
      processLine e raw =
        ({ lineNo := e.lineNo + 1, oob := [], result_record := none,
           recovering := false },
          Event.outputCmd ⟨e.oob, e.result_record⟩ ::
            dispatchOutput ⟨e.oob, e.result_record⟩)) := by
  refine ⟨?_, ?_, ?_, ?_, ?_⟩
  · intro o
    rw [dispatchOutput, List.filter_append, List.filter_append, filter_sa_map_oob]
    cases o.result_record <;> simp [isStreamOrAsync]
  · intro o
    rw [dispatchOutput, List.countP_append, List.countP_append,
      countP_result_map_oob]
    cases o.result_record <;> simp [isResultEv, List.countP_cons]
  · intro o
    rw [dispatchOutput, List.countP_append, List.countP_append,
      countP_prompt_map_oob]
    cases o.result_record <;> simp [isPromptEv, List.countP_cons]
  · intro e raw r hrec hparse
    simp [processLine, hrec, hparse]
  · intro e raw hrec hparse
    simp [processLine, hrec, hparse]

/-- Witness for C2: the out-of-band append and the prompt hand-over, at
concrete engine states and lines. -/
theorem dispatch_per_record_calls_witness :
    processLine engineInit (str "~\"hi\"\n") =
      ({ lineNo := 2, oob := [.stream_record ⟨.GDBMI_CONSOLE, str "hi"⟩],
         result_record := none, recovering := false }, []) ∧
    processLine ⟨4, [.stream_record ⟨.GDBMI_LOG, str "x"⟩], none, false⟩
        (str "(gdb) \n") =
      ({ lineNo := 5, oob := [], result_record := none, recovering := false },
        [Event.outputCmd ⟨[.stream_record ⟨.GDBMI_LOG, str "x"⟩], none⟩,
         Event.stream ⟨.GDBMI_LOG, str "x"⟩,
         Event.prompt promptText]) := by
  constructor
  · exact dispatch_per_record_calls.2.2.2.1 engineInit (str "~\"hi\"\n")
      (.stream_record ⟨.GDBMI_CONSOLE, str "hi"⟩) rfl (by rfl)
  · exact dispatch_per_record_calls.2.2.2.2
      ⟨4, [.stream_record ⟨.GDBMI_LOG, str "x"⟩], none, false⟩
      (str "(gdb) \n") rfl (by rfl)

/-- C9: the dispatch of every completed output command ends with the prompt
callback carrying the fixed text, and contains exactly one prompt call; and a
prompt line that arrives before any record yields the valid empty output
command, which is still handed to the output callback and dispatched. -/
theorem prompt_per_output :
    (∀ o : gdbmi_output,
      (dispatchOutput o).getLast? = some (Event.prompt promptText)) ∧
    (∀ o : gdbmi_output, (dispatchOutput o).countP isPromptEv = 1) ∧
    processLine engineInit (str "(gdb) \n") =
      ({ lineNo := 2, oob := [], result_record := none, recovering := false },
        Event.outputCmd ⟨[], none⟩ :: dispatchOutput ⟨[], none⟩) ∧
    dispatchOutput ⟨[], none⟩ = [Event.prompt promptText] ∧
    promptText = str "(gdb) \n" := by
  refine ⟨?_, ?_, by rfl, by rfl, by rfl⟩
  · intro o
    rw [dispatchOutput, List.getLast?_concat]
  · intro o
    rw [dispatchOutput, List.countP_append, List.countP_append,
      countP_prompt_map_oob]
    cases o.result_record <;> simp [isPromptEv, List.countP_cons]

/-! ## The quoted-string escape table -/

set_option maxRecDepth 8000 in
/-- C3: inside a scanned quoted string, every byte value 0 to 255 decodes
from its three-digit octal escape (shorter one and two digit octal escapes
decode the same way); any backslash pair other than the escape
table entries is preserved verbatim; a string with no closing quote is a
scan error, both for the scanner and in a stream-record line; and the pairs
backslash-backslash, backslash-quote and the letter escapes a b t n v f r
decode to the single bytes 92, 34, 7, 8, 9, 10, 11, 12, 13. -/
theorem scan_quoted_string_escapes :
    (∀ b : Nat, b < 256 →
      scanString [92, 48 + b / 64, 48 + b / 8 % 8, 48 + b % 8, 34] =
        some ([b], [])) ∧
    (∀ c : Fin 256, c.val ∉ [92, 34, 97, 98, 116, 110, 118, 102, 114] →
      isOctalB c.val = false →
      scanString [92, c.val, 34] = some ([92, c.val], [])) ∧
    (∀ l : List Nat, (∀ c ∈ l, c ≠ 34 ∧ c ≠ 92) → scanString l = none) ∧
    scanString [92, 92, 34] = some ([92], []) ∧
    scanString [92, 34, 34] = some ([34], []) ∧
    scanString [92, 97, 34] = some ([7], []) ∧
    scanString [92, 98, 34] = some ([8], []) ∧
    scanString [92, 116, 34] = some ([9], []) ∧
    scanString [92, 110, 34] = some ([10], []) ∧
    scanString [92, 118, 34] = some ([11], []) ∧
    scanString [92, 102, 34] = some ([12], []) ∧
    scanString [92, 114, 34] = some ([13], []) ∧
    scanString [92, 55, 34] = some ([7], []) ∧
    scanString [92, 52, 50, 34] = some ([34], []) ∧
    parseLine (str "~\"abc") = .err (str "\"abc") 2 := by
  refine ⟨?_, ?_, ?_, by rfl, by rfl, by rfl, by rfl, by rfl, by rfl, by rfl,
    by rfl, by rfl, by rfl, by rfl, by rfl⟩
  · decide
  · decide
  · intro l
    induction l with
    | nil => intro _; rfl
    | cons c rest ih =>
      intro h
      obtain ⟨h34, h92⟩ := h c (List.mem_cons_self c rest)
      have hr : ∀ x ∈ rest, x ≠ 34 ∧ x ≠ 92 :=
        fun x hx => h x (List.mem_cons_of_mem c hx)
      show scanStringF (rest.length + 1 + 1) (c :: rest) = none
      simp only [scanStringF]
      rw [if_neg h34, if_neg h92]
      have hss : scanStringF (rest.length + 1) rest = scanString rest := rfl
      rw [hss, ih hr]
      rfl

/-- Witness for C3 at byte 255, the pair backslash-x, and an unterminated
string. -/
theorem scan_quoted_string_escapes_witness :
    scanString [92, 51, 55, 55, 34] = some ([255], []) ∧
    scanString [92, 120, 34] = some ([92, 120], []) ∧
    scanString [97, 98, 99] = none := by
  refine ⟨?_, ?_, ?_⟩
  · exact scan_quoted_string_escapes.1 255 (by decide)
  · exact scan_quoted_string_escapes.2.1 (120 : Fin 256) (by decide) (by decide)
  · exact scan_quoted_string_escapes.2.2.1 [97, 98, 99] (by decide)

/-! ## Class recognition -/

theorem tableLookup_not_mem {α : Type} : ∀ (t : List (List Nat × α)) (name : List Nat),
    name ∉ t.map Prod.fst → tableLookup t name = none := by
  intro t
  induction t with
  | nil => intro name _; rfl
  | cons p ps ih =>
    intro name h
    rw [tableLookup, if_neg ?_]
    · exact ih name (fun hm => h (List.mem_cons_of_mem _ hm))
    · intro he
      apply h
      rw [← he]
      exact List.mem_map_of_mem Prod.fst (List.mem_cons_self p ps)

/-- C4: the result-class recognizer maps done, running, connected, error and
exit to the corresponding enum values, maps every name outside this closed
catalog to the UNSUPPORTED sentinel, which is distinct from DONE, and the
surrounding result record is still delivered as valid. -/
theorem result_class_recognition :
    get_gdbmi_result_class (str "done") = .GDBMI_DONE ∧
    get_gdbmi_result_class (str "running") = .GDBMI_RUNNING ∧
    get_gdbmi_result_class (str "connected") = .GDBMI_CONNECTED ∧
    get_gdbmi_result_class (str "error") = .GDBMI_ERROR ∧
    get_gdbmi_result_class (str "exit") = .GDBMI_EXIT ∧
    (∀ name : List Nat,
      name ∉ [str "done", str "running", str "connected", str "error",
        str "exit"] →
      get_gdbmi_result_class name = .GDBMI_UNSUPPORTED) ∧
    gdbmi_result_class.GDBMI_UNSUPPORTED ≠ gdbmi_result_class.GDBMI_DONE ∧
    (gdbwire_push_data gdbwireInit (str "^strange-class\n(gdb) \n")).2 =
      [Event.outputCmd ⟨[], some ⟨0, .GDBMI_UNSUPPORTED, []⟩⟩,
       Event.result ⟨0, .GDBMI_UNSUPPORTED, []⟩,
       Event.prompt promptText] := by
  refine ⟨by rfl, by rfl, by rfl, by rfl, by rfl, ?_, by decide, by rfl⟩
  intro name h
  rw [get_gdbmi_result_class, tableLookup_not_mem]
  · rfl
  · have hm : result_class_table.map Prod.fst =
        [str "done", str "running", str "connected", str "error", str "exit"] := rfl
    rw [hm]
    exact h

/-- Witness for C4 at a name outside the catalog. -/
theorem result_class_recognition_witness :
    get_gdbmi_result_class (str "mystery") = .GDBMI_UNSUPPORTED :=
  result_class_recognition.2.2.2.2.2.1 (str "mystery") (by decide)

/-- C5: the async-class recognizer maps each of the twenty-three catalog
names to its enum value, maps every name outside the catalog to the
GDBMI_ASYNC_UNSUPPORTED sentinel, and in both cases the async record is
still constructed and delivered. -/
theorem async_class_recognition :
    get_gdbmi_async_class (str "download") = .GDBMI_ASYNC_DOWNLOAD ∧
    get_gdbmi_async_class (str "stopped") = .GDBMI_ASYNC_STOPPED ∧
    get_gdbmi_async_class (str "running") = .GDBMI_ASYNC_RUNNING ∧
    get_gdbmi_async_class (str "thread-group-added") =
      .GDBMI_ASYNC_THREAD_GROUP_ADDED ∧
    get_gdbmi_async_class (str "thread-group-removed") =
      .GDBMI_ASYNC_THREAD_GROUP_REMOVED ∧
    get_gdbmi_async_class (str "thread-group-started") =
      .GDBMI_ASYNC_THREAD_GROUP_STARTED ∧
    get_gdbmi_async_class (str "thread-group-exited") =
      .GDBMI_ASYNC_THREAD_GROUP_EXITED ∧
    get_gdbmi_async_class (str "thread-created") = .GDBMI_ASYNC_THREAD_CREATED ∧
    get_gdbmi_async_class (str "thread-exited") = .GDBMI_ASYNC_THREAD_EXITED ∧
    get_gdbmi_async_class (str "thread-selected") = .GDBMI_ASYNC_THREAD_SELECTED ∧
    get_gdbmi_async_class (str "library-loaded") = .GDBMI_ASYNC_LIBRARY_LOADED ∧
    get_gdbmi_async_class (str "library-unloaded") =
      .GDBMI_ASYNC_LIBRARY_UNLOADED ∧
    get_gdbmi_async_class (str "traceframe-changed") =
      .GDBMI_ASYNC_TRACEFRAME_CHANGED ∧
    get_gdbmi_async_class (str "tsv-created") = .GDBMI_ASYNC_TSV_CREATED ∧
    get_gdbmi_async_class (str "tsv-modified") = .GDBMI_ASYNC_TSV_MODIFIED ∧
    get_gdbmi_async_class (str "tsv-deleted") = .GDBMI_ASYNC_TSV_DELETED ∧
    get_gdbmi_async_class (str "breakpoint-created") =
      .GDBMI_ASYNC_BREAKPOINT_CREATED ∧
    get_gdbmi_async_class (str "breakpoint-modified") =
      .GDBMI_ASYNC_BREAKPOINT_MODIFIED ∧
    get_gdbmi_async_class (str "breakpoint-deleted") =
      .GDBMI_ASYNC_BREAKPOINT_DELETED ∧
    get_gdbmi_async_class (str "record-started") = .GDBMI_ASYNC_RECORD_STARTED ∧
    get_gdbmi_async_class (str "record-stopped") = .GDBMI_ASYNC_RECORD_STOPPED ∧
    get_gdbmi_async_class (str "cmd-param-changed") =
      .GDBMI_ASYNC_CMD_PARAM_CHANGED ∧
    get_gdbmi_async_class (str "memory-changed") = .GDBMI_ASYNC_MEMORY_CHANGED ∧
    (∀ name : List Nat, name ∉ async_class_table.map Prod.fst →
      get_gdbmi_async_class name = .GDBMI_ASYNC_UNSUPPORTED) ∧
    async_class_table.map Prod.fst =
      [str "download", str "stopped", str "running", str "thread-group-added",
       str "thread-group-removed", str "thread-group-started",
       str "thread-group-exited", str "thread-created", str "thread-exited",
       str "thread-selected", str "library-loaded", str "library-unloaded",
       str "traceframe-changed", str "tsv-created", str "tsv-modified",
       str "tsv-deleted", str "breakpoint-created", str "breakpoint-modified",
       str "breakpoint-deleted", str "record-started", str "record-stopped",
       str "cmd-param-changed", str "memory-changed"] ∧
    (gdbwire_push_data gdbwireInit (str "=made-up-thing\n(gdb) \n")).2 =
      [Event.outputCmd ⟨[.async_record
          ⟨0, .GDBMI_NOTIFY, .GDBMI_ASYNC_UNSUPPORTED, []⟩], none⟩,
       Event.asyncRec ⟨0, .GDBMI_NOTIFY, .GDBMI_ASYNC_UNSUPPORTED, []⟩,
       Event.prompt promptText] ∧
    (gdbwire_push_data gdbwireInit (str "+download\n(gdb) \n")).2 =
      [Event.outputCmd ⟨[.async_record
          ⟨0, .GDBMI_STATUS, .GDBMI_ASYNC_DOWNLOAD, []⟩], none⟩,
       Event.asyncRec ⟨0, .GDBMI_STATUS, .GDBMI_ASYNC_DOWNLOAD, []⟩,
       Event.prompt promptText] := by
  refine ⟨by rfl, by rfl, by rfl, by rfl, by rfl, by rfl, by rfl, by rfl,
    by rfl, by rfl, by rfl, by rfl, by rfl, by rfl, by rfl, by rfl, by rfl,
    by rfl, by rfl, by rfl, by rfl, by rfl, by rfl, ?_, by rfl, by rfl, by rfl⟩
  intro name h
  rw [get_gdbmi_async_class, tableLookup_not_mem _ _ h]
  rfl

/-- Witness for C5 at a name outside the catalog. -/
theorem async_class_recognition_witness :
    get_gdbmi_async_class (str "totally-new") = .GDBMI_ASYNC_UNSUPPORTED :=
  async_class_recognition.2.2.2.2.2.2.2.2.2.2.2.2.2.2.2.2.2.2.2.2.2.2.2.1
    (str "totally-new") (by decide)

/-! ## Parse errors and recovery -/

/-- C6: a line the grammar rejects produces exactly one parse_error event,
carrying the raw offending line, the offending lexeme and the 1-based line
and column, and no stream, async, result or prompt callback fires for that
line (the event list of the line is exactly the one error); afterwards the
engine resynchronizes at the next prompt and the next well-formed output
command is delivered normally, as on the concrete input with the dollar
line. -/
theorem parse_error_report_and_recovery :
    (∀ (e : EngineState) (raw t : List Nat) (c : Nat),
      e.recovering = false → parseLine (stripEol raw) = .err t c →
      processLine e raw =
        ({ lineNo := e.lineNo + 1, oob := [], result_record := none,
           recovering := true },
          [Event.parseError raw t ⟨e.lineNo, c⟩])) ∧
    (gdbwire_push_data gdbwireInit (str "$garbage\n(gdb) \n^done\n(gdb) \n")).2 =
      [Event.parseError (str "$garbage\n") (str "$") ⟨1, 1⟩,
       Event.outputCmd ⟨[], some ⟨0, .GDBMI_DONE, []⟩⟩,
       Event.result ⟨0, .GDBMI_DONE, []⟩,
       Event.prompt promptText] := by
  constructor
  · intro e raw t c hrec hparse
    simp [processLine, hrec, hparse]
  · rfl

/-- Witness for C6 at the dollar-garbage line from the initial state. -/
theorem parse_error_report_and_recovery_witness :
    processLine engineInit (str "$garbage\n") =
      ({ lineNo := 2, oob := [], result_record := none, recovering := true },
        [Event.parseError (str "$garbage\n") (str "$") ⟨1, 1⟩]) :=
  parse_error_report_and_recovery.1 engineInit (str "$garbage\n") (str "$") 1
    rfl (by rfl)

/-! ## Variables on tuple and list children -/

/-- C7 counterexample: the grammar does not force tuple children to carry
variables. The accepted input *stopped,(tuple of one bare cstring) is
delivered with a TUPLE node whose only child has no variable, so the claim
that in every delivered parse tree every child of a TUPLE node has a
non-empty variable name is false. -/
theorem tuple_child_variable_counterexample :
    ∃ ev ∈ (gdbwire_push_data gdbwireInit
        (str "*stopped,\x7b\"value\"\x7d\n(gdb) \n")).2,
      ∃ a : gdbmi_async_record, ev = Event.asyncRec a ∧
        ∃ r ∈ a.result, ¬ TupleOk r := by
  have hev : (gdbwire_push_data gdbwireInit
      (str "*stopped,\x7b\"value\"\x7d\n(gdb) \n")).2 =
      [Event.outputCmd ⟨[.async_record ⟨0, .GDBMI_EXEC, .GDBMI_ASYNC_STOPPED,
          [.tuple none [.cstring none (str "value")]]⟩], none⟩,
       Event.asyncRec ⟨0, .GDBMI_EXEC, .GDBMI_ASYNC_STOPPED,
          [.tuple none [.cstring none (str "value")]]⟩,
       Event.prompt promptText] := by rfl
  refine ⟨Event.asyncRec ⟨0, .GDBMI_EXEC, .GDBMI_ASYNC_STOPPED,
      [.tuple none [.cstring none (str "value")]]⟩, ?_,
    ⟨0, .GDBMI_EXEC, .GDBMI_ASYNC_STOPPED,
      [.tuple none [.cstring none (str "value")]]⟩, rfl,
    .tuple none [.cstring none (str "value")], List.mem_cons_self _ _, ?_⟩
  · rw [hev]
    exact List.mem_cons_of_mem _ (List.mem_cons_self _ _)
  · intro hT
    cases hT with
    | tuple v cs hvar hrec =>
      obtain ⟨name, hv, _⟩ :=
        hvar (.cstring none (str "value")) (List.mem_cons_self _ _)
      simp [resVar] at hv

/-- C7 amended: in every delivered parse tree a CSTRING node has no
children; each child of a TUPLE or LIST node carries exactly the optional
variable written in the input, so tuple children are named when the input
names them (as in GDB output), the grammar does not reject a nameless tuple
child, and LIST children are unconstrained (named and nameless elements
mix). -/
theorem result_tree_variable_shape :
    (∀ (v : Option (List Nat)) (s : List Nat),
      resChildren (gdbmi_result.cstring v s) = []) ∧
    (gdbwire_push_data gdbwireInit
        (str "=breakpoint-created,bkpt=\x7bnumber=\"2\",type=\"breakpoint\",line=\"9\"\x7d\n(gdb) \n")).2 =
      [Event.outputCmd ⟨[.async_record
          ⟨0, .GDBMI_NOTIFY, .GDBMI_ASYNC_BREAKPOINT_CREATED,
           [.tuple (some (str "bkpt"))
             [.cstring (some (str "number")) (str "2"),
              .cstring (some (str "type")) (str "breakpoint"),
              .cstring (some (str "line")) (str "9")]]⟩], none⟩,
       Event.asyncRec ⟨0, .GDBMI_NOTIFY, .GDBMI_ASYNC_BREAKPOINT_CREATED,
           [.tuple (some (str "bkpt"))
             [.cstring (some (str "number")) (str "2"),
              .cstring (some (str "type")) (str "breakpoint"),
              .cstring (some (str "line")) (str "9")]]⟩,
       Event.prompt promptText] ∧
    (gdbwire_push_data gdbwireInit
        (str "*stopped,x=[key=\"value\",\"value2\",key3=\"value3\"]\n(gdb) \n")).2 =
      [Event.outputCmd ⟨[.async_record ⟨0, .GDBMI_EXEC, .GDBMI_ASYNC_STOPPED,
          [.list (some (str "x"))
            [.cstring (some (str "key")) (str "value"),
             .cstring none (str "value2"),
             .cstring (some (str "key3")) (str "value3")]]⟩], none⟩,
       Event.asyncRec ⟨0, .GDBMI_EXEC, .GDBMI_ASYNC_STOPPED,
          [.list (some (str "x"))
            [.cstring (some (str "key")) (str "value"),
             .cstring none (str "value2"),
             .cstring (some (str "key3")) (str "value3")]]⟩,
       Event.prompt promptText] ∧
    (gdbwire_push_data gdbwireInit
        (str "*stopped,\x7b\"value\"\x7d\n(gdb) \n")).2 =
      [Event.outputCmd ⟨[.async_record ⟨0, .GDBMI_EXEC, .GDBMI_ASYNC_STOPPED,
          [.tuple none [.cstring none (str "value")]]⟩], none⟩,
       Event.asyncRec ⟨0, .GDBMI_EXEC, .GDBMI_ASYNC_STOPPED,
          [.tuple none [.cstring none (str "value")]]⟩,
       Event.prompt promptText] := by
  exact ⟨fun v s => rfl, by rfl, by rfl, by rfl⟩

/-! ## Lemmas: token prefixes and sigil dispatch -/

theorem isWs_of_digit {c : Nat} (h : isDigitB c = true) : isWs c = false := by
  simp only [isDigitB, Bool.and_eq_true, decide_eq_true_eq] at h
  simp only [isWs, Bool.or_eq_false_iff, decide_eq_false_iff_not]
  omega

theorem skipWs_not_ws {c : Nat} (rest : List Nat) (h : isWs c = false) :
    skipWs (c :: rest) = c :: rest := by
  simp [skipWs, h]

theorem isPromptLine_head {c : Nat} (rest : List Nat) (hws : isWs c = false)
    (h40 : c ≠ 40) : isPromptLine (c :: rest) = false := by
  unfold isPromptLine
  rw [skipWs_not_ws rest hws]
  rw [if_neg]
  intro hc
  obtain ⟨h1, _⟩ := hc
  have ht : (c :: rest).take 5 = c :: rest.take 4 := rfl
  rw [ht] at h1
  have hpt : promptTok = [40, 103, 100, 98, 41] := rfl
  rw [hpt] at h1
  injection h1 with hd _
  exact h40 hd

theorem isPromptLine_digit {d : Nat} (rest : List Nat) (h : isDigitB d = true) :
    isPromptLine (d :: rest) = false := by
  refine isPromptLine_head rest (isWs_of_digit h) ?_
  simp only [isDigitB, Bool.and_eq_true, decide_eq_true_eq] at h
  omega

theorem digitsAcc_append : ∀ (t m : List Nat) (acc : Nat),
    (∀ d ∈ t, isDigitB d = true) →
    (∀ c, m.head? = some c → isDigitB c = false) →
    digitsAcc acc (t ++ m) = (t.foldl (fun a c => a * 10 + (c - 48)) acc, m) := by
  intro t
  induction t with
  | nil =>
    intro m acc _ hm
    cases m with
    | nil => rfl
    | cons c m2 =>
      have hc : isDigitB c = false := hm c rfl
      simp [digitsAcc, hc]
  | cons d t ih =>
    intro m acc ht hm
    have hd : isDigitB d = true := ht d (List.mem_cons_self d t)
    simp only [List.cons_append, digitsAcc, hd, if_true, List.foldl_cons]
    exact ih m _ (fun x hx => ht x (List.mem_cons_of_mem d hx)) hm

theorem takeDigits_append (d : Nat) (t m : List Nat)
    (hds : ∀ x ∈ d :: t, isDigitB x = true)
    (hm : ∀ c, m.head? = some c → isDigitB c = false) :
    takeDigits (d :: t ++ m) = (some (digitsVal (d :: t)), m) := by
  have hd : isDigitB d = true := hds d (List.mem_cons_self d t)
  simp only [List.cons_append, takeDigits, hd, if_true]
  rw [digitsAcc_append t m (d - 48)
    (fun x hx => hds x (List.mem_cons_of_mem d hx)) hm]
  have hv : digitsVal (d :: t) =
      t.foldl (fun a c => a * 10 + (c - 48)) (d - 48) := by
    simp [digitsVal, List.foldl_cons]
  rw [hv]

/-- A line that starts with a nonempty run of digits parses as that token
value attached to the record the following sigil selects; a token prefix
followed by a stream sigil is a grammar error at the sigil. -/
theorem parseLine_digits : ∀ (ds m : List Nat), ds ≠ [] →
    (∀ d ∈ ds, isDigitB d = true) →
    (∀ c, m.head? = some c → isDigitB c = false) →
    parseLine (ds ++ m) =
      (match m with
       | c :: r =>
         if c = 126 then LineResult.err [126] (colAt (ds ++ m).length (c :: r))
         else if c = 64 then LineResult.err [64] (colAt (ds ++ m).length (c :: r))
         else if c = 38 then LineResult.err [38] (colAt (ds ++ m).length (c :: r))
         else if c = 42 then
           finishAsync (ds ++ m).length (digitsVal ds) .GDBMI_EXEC r
         else if c = 43 then
           finishAsync (ds ++ m).length (digitsVal ds) .GDBMI_STATUS r
         else if c = 61 then
           finishAsync (ds ++ m).length (digitsVal ds) .GDBMI_NOTIFY r
         else if c = 94 then
           finishResultRec (ds ++ m).length (digitsVal ds)
             (colAt (ds ++ m).length (c :: r)) r
         else LineResult.err (offendingLexeme (c :: r))
           (colAt (ds ++ m).length (c :: r))
       | [] => LineResult.err [] (colAt (ds ++ m).length [])) := by
  intro ds m hne hds hm
  obtain ⟨d, t, rfl⟩ : ∃ d t, ds = d :: t := by
    cases ds with
    | nil => exact absurd rfl hne
    | cons d t => exact ⟨d, t, rfl⟩
  have hd : isDigitB d = true := hds d (List.mem_cons_self d t)
  have hps : isPromptLine (d :: (t ++ m)) = false :=
    isPromptLine_digit _ hd
  unfold parseLine
  rw [List.cons_append]
  rw [if_neg (by rw [hps]; exact Bool.false_ne_true)]
  rw [skipWs_not_ws _ (isWs_of_digit hd)]
  rw [← List.cons_append, takeDigits_append d t m hds hm]
  rfl

/-- A line that starts with a non-space, non-digit, non-parenthesis byte
parses with token zero: the sigil selects the record kind directly. -/
theorem parseLine_sigil (c : Nat) (r : List Nat) (hws : isWs c = false)
    (hdg : isDigitB c = false) (h40 : c ≠ 40) :
    parseLine (c :: r) =
      (if c = 126 then finishStream (c :: r).length .GDBMI_CONSOLE r
       else if c = 64 then finishStream (c :: r).length .GDBMI_TARGET r
       else if c = 38 then finishStream (c :: r).length .GDBMI_LOG r
       else if c = 42 then finishAsync (c :: r).length 0 .GDBMI_EXEC r
       else if c = 43 then finishAsync (c :: r).length 0 .GDBMI_STATUS r
       else if c = 61 then finishAsync (c :: r).length 0 .GDBMI_NOTIFY r
       else if c = 94 then finishResultRec (c :: r).length 0
           (colAt (c :: r).length (c :: r)) r
       else LineResult.err (offendingLexeme (c :: r))
         (colAt (c :: r).length (c :: r))) := by
  have hps := isPromptLine_head r hws h40
  unfold parseLine
  rw [if_neg (by rw [hps]; exact Bool.false_ne_true)]
  rw [skipWs_not_ws _ hws]
  have htd : takeDigits (c :: r) = (none, c :: r) := by
    simp [takeDigits, hdg]
  rw [htd]
  rfl

theorem finishResultRec_inv {L tok sc : Nat} {rest : List Nat}
    {r : gdbmi_result_record} {c : Nat}
    (h : finishResultRec L tok sc rest = .resultRec r c) :
    r.token = tok ∧ c = sc := by
  simp only [finishResultRec] at h
  split at h
  · cases h
  · split at h
    · cases h
    · cases h
      exact ⟨rfl, rfl⟩

theorem finishAsync_inv {L tok : Nat} {kind : gdbmi_async_record_kind}
    {rest : List Nat} {a : gdbmi_async_record}
    (h : finishAsync L tok kind rest = .oob (.async_record a)) :
    a.token = tok ∧ a.kind = kind := by
  simp only [finishAsync] at h
  split at h
  · cases h
  · split at h
    · cases h
    · cases h
      exact ⟨rfl, rfl⟩

/-- C8: a numeric token prefix attaches to the immediately following record:
for every nonempty digit run, a result-record line built after it carries
the parsed value as its token, and so does an async-record line; a record
line with no prefix carries token zero, zero meaning absent; concretely, the
512-prefixed error record and the 111-prefixed stopped record are delivered
with those tokens. -/
theorem token_prefix_attachment :
    (∀ ds : List Nat, ds ≠ [] → (∀ d ∈ ds, isDigitB d = true) →
      parseLine (ds ++ str "^done") =
        .resultRec ⟨digitsVal ds, .GDBMI_DONE, []⟩ (ds.length + 1)) ∧
    (∀ ds : List Nat, ds ≠ [] → (∀ d ∈ ds, isDigitB d = true) →
      parseLine (ds ++ str "*stopped") =
        .oob (.async_record
          ⟨digitsVal ds, .GDBMI_EXEC, .GDBMI_ASYNC_STOPPED, []⟩)) ∧
    (∀ (rest : List Nat) (r : gdbmi_result_record) (c : Nat),
      parseLine (94 :: rest) = .resultRec r c → r.token = 0) ∧
    (∀ (rest : List Nat) (a : gdbmi_async_record),
      parseLine (42 :: rest) = .oob (.async_record a) → a.token = 0) ∧
    (gdbwire_push_data gdbwireInit
        (str "512^error,msg=\"Undefined command: \\\"null\\\".  Try \\\"help\\\".\"\n(gdb) \n")).2 =
      [Event.outputCmd ⟨[], some ⟨512, .GDBMI_ERROR,
          [.cstring (some (str "msg"))
            (str "Undefined command: \"null\".  Try \"help\".")]⟩⟩,
       Event.result ⟨512, .GDBMI_ERROR,
          [.cstring (some (str "msg"))
            (str "Undefined command: \"null\".  Try \"help\".")]⟩,
       Event.prompt promptText] ∧
    (gdbwire_push_data gdbwireInit
        (str "111*stopped,key=\"value\"\n(gdb) \n")).2 =
      [Event.outputCmd ⟨[.async_record ⟨111, .GDBMI_EXEC, .GDBMI_ASYNC_STOPPED,
          [.cstring (some (str "key")) (str "value")]⟩], none⟩,
       Event.asyncRec ⟨111, .GDBMI_EXEC, .GDBMI_ASYNC_STOPPED,
          [.cstring (some (str "key")) (str "value")]⟩,
       Event.prompt promptText] := by
  refine ⟨?_, ?_, ?_, ?_, by rfl, by rfl⟩
  · intro ds hne hds
    have hm : ∀ c, (str "^done").head? = some c → isDigitB c = false := by
      intro c hc
      rw [show (str "^done").head? = some 94 from rfl] at hc
      cases hc
      decide
    rw [parseLine_digits ds (str "^done") hne hds hm]
    show LineResult.resultRec ⟨digitsVal ds, .GDBMI_DONE, []⟩
        (colAt (ds ++ str "^done").length (94 :: str "done")) =
      LineResult.resultRec ⟨digitsVal ds, .GDBMI_DONE, []⟩ (ds.length + 1)
    have hcol : colAt (ds ++ str "^done").length (94 :: str "done") =
        ds.length + 1 := by
      have h1 : (str "^done").length = 5 := rfl
      have h2 : (94 :: str "done").length = 5 := rfl
      simp [colAt, List.length_append, h1, h2]
    rw [hcol]
  · intro ds hne hds
    have hm : ∀ c, (str "*stopped").head? = some c → isDigitB c = false := by
      intro c hc
      rw [show (str "*stopped").head? = some 42 from rfl] at hc
      cases hc
      decide
    rw [parseLine_digits ds (str "*stopped") hne hds hm]
    rfl
  · intro rest r c h
    rw [parseLine_sigil 94 rest (by decide) (by decide) (by decide)] at h
    rw [if_neg (by decide), if_neg (by decide), if_neg (by decide),
      if_neg (by decide), if_neg (by decide), if_neg (by decide),
      if_pos rfl] at h
    exact (finishResultRec_inv h).1
  · intro rest a h
    rw [parseLine_sigil 42 rest (by decide) (by decide) (by decide)] at h
    rw [if_neg (by decide), if_neg (by decide), if_neg (by decide),
      if_pos rfl] at h
    exact (finishAsync_inv h).1

/-- Witness for C8 at the digit run 512 and at concrete unprefixed lines. -/
theorem token_prefix_attachment_witness :
    parseLine (str "512^done") =
      LineResult.resultRec ⟨512, .GDBMI_DONE, []⟩ 4 ∧
    parseLine (str "77*stopped") =
      LineResult.oob (.async_record
        ⟨77, .GDBMI_EXEC, .GDBMI_ASYNC_STOPPED, []⟩) := by
  constructor
  · exact token_prefix_attachment.1 [53, 49, 50] (by decide) (by decide)
  · exact token_prefix_attachment.2.1 [55, 55] (by decide) (by decide)

/-- C10: a delivered stream record consists of exactly a kind and a payload
string (the structure has no other fields), and a token prefix can attach
only to an async or result record: a digit run before any of the three
stream sigils is a grammar error at the sigil, reported and not delivered,
while the unprefixed line is delivered as kind plus payload. -/
theorem stream_record_shape :
    (∀ ds rest : List Nat, ds ≠ [] → (∀ d ∈ ds, isDigitB d = true) →
      parseLine (ds ++ 126 :: rest) = .err [126] (ds.length + 1)) ∧
    (∀ ds rest : List Nat, ds ≠ [] → (∀ d ∈ ds, isDigitB d = true) →
      parseLine (ds ++ 64 :: rest) = .err [64] (ds.length + 1)) ∧
    (∀ ds rest : List Nat, ds ≠ [] → (∀ d ∈ ds, isDigitB d = true) →
      parseLine (ds ++ 38 :: rest) = .err [38] (ds.length + 1)) ∧
    (∀ r : gdbmi_stream_record,
      (⟨r.kind, r.cstring⟩ : gdbmi_stream_record) = r) ∧
    (gdbwire_push_data gdbwireInit (str "~\"hi\"\n(gdb) \n")).2 =
      [Event.outputCmd ⟨[.stream_record ⟨.GDBMI_CONSOLE, str "hi"⟩], none⟩,
       Event.stream ⟨.GDBMI_CONSOLE, str "hi"⟩,
       Event.prompt promptText] ∧
    (gdbwire_push_data gdbwireInit (str "111~\"hi\"\n(gdb) \n")).2 =
      [Event.parseError (str "111~\"hi\"\n") (str "~") ⟨1, 4⟩] := by
  have hcol : ∀ (sig : Nat) (ds rest : List Nat),
      colAt (ds ++ sig :: rest).length (sig :: rest) = ds.length + 1 := by
    intro sig ds rest
    simp only [colAt, List.length_append, List.length_cons]
    omega
  refine ⟨?_, ?_, ?_, fun r => rfl, by rfl, by rfl⟩
  · intro ds rest hne hds
    have hm : ∀ c, (126 :: rest).head? = some c → isDigitB c = false := by
      intro c hc
      rw [show (126 :: rest).head? = some 126 from rfl] at hc
      cases hc
      decide
    rw [parseLine_digits ds (126 :: rest) hne hds hm]
    show LineResult.err [126] (colAt (ds ++ 126 :: rest).length (126 :: rest)) = _
    rw [hcol]
  · intro ds rest hne hds
    have hm : ∀ c, (64 :: rest).head? = some c → isDigitB c = false := by
      intro c hc
      rw [show (64 :: rest).head? = some 64 from rfl] at hc
      cases hc
      decide
    rw [parseLine_digits ds (64 :: rest) hne hds hm]
    show LineResult.err [64] (colAt (ds ++ 64 :: rest).length (64 :: rest)) = _
    rw [hcol]
  · intro ds rest hne hds
    have hm : ∀ c, (38 :: rest).head? = some c → isDigitB c = false := by
      intro c hc
      rw [show (38 :: rest).head? = some 38 from rfl] at hc
      cases hc
      decide
    rw [parseLine_digits ds (38 :: rest) hne hds hm]
    show LineResult.err [38] (colAt (ds ++ 38 :: rest).length (38 :: rest)) = _
    rw [hcol]

/-- Witness for C10 at the digit run 111 before each stream sigil. -/
theorem stream_record_shape_witness :
    parseLine (str "111~x") = LineResult.err [126] 4 ∧
    parseLine (str "111@x") = LineResult.err [64] 4 ∧
    parseLine (str "111&x") = LineResult.err [38] 4 := by
  refine ⟨?_, ?_, ?_⟩
  · exact stream_record_shape.1 [49, 49, 49] [120] (by decide) (by decide)
  · exact stream_record_shape.2.1 [49, 49, 49] [120] (by decide) (by decide)
  · exact stream_record_shape.2.2.1 [49, 49, 49] [120] (by decide) (by decide)

end Gdbwire
